import Mathlib

/-!
Shallow embedding of the infogen adaptive search cache and retry orchestrator
(src/infogen/services): the v1 client cached_tavily_client.py, the v2 client
cached_tavily_client_v2.py, the web_searcher agent and orchestrator.py.

Modelling conventions:
- PostgreSQL tables are lists of rows; SQL WHERE / ORDER BY / LIMIT /
  ON CONFLICT clauses are translated clause by clause.
- pgvector embeddings are rationals and the vector distance operator is a
  function parameter dist; similarity is written 1 - dist as in the SQL.
- timestamps and durations are integer minutes; an entry is unexpired while
  now < created_at + ttl (strict, as in the SQL comparisons).
- external collaborators (LLM, embedding provider, Tavily API) are function
  parameters; awaited calls are modelled as sequential calls.
- Python dicts are insertion-ordered association lists.
-/

namespace Infogen

/-- Python urlparse(url).netloc: the authority component, the text after the
first "://" up to the next path, query or fragment delimiter; empty when the
URL has no "://" part. -/
def netloc (url : String) : String :=
  match url.splitOn "://" with
  | _ :: rest :: _ =>
      String.mk (rest.toList.takeWhile (fun c => !(c == '/' || c == '?' || c == '#')))
  | _ => ""

/-- Python dict assignment d[k] = v on an insertion-ordered association list:
an existing key keeps its position and receives the new value, a new key is
appended at the end. -/
def dictInsert {α : Type} (acc : List (String × α)) (k : String) (v : α) :
    List (String × α) :=
  if acc.any (fun p => p.1 == k) then
    acc.map (fun p => if p.1 == k then (k, v) else p)
  else acc ++ [(k, v)]

/-- Python dict lookup d.get(k). -/
def dictLookup {α : Type} (acc : List (String × α)) (k : String) : Option α :=
  (acc.find? (fun p => p.1 == k)).map (fun p => p.2)

/-- Python list(d.values()) in insertion order. -/
def dictValues {α : Type} (acc : List (String × α)) : List α :=
  acc.map (fun p => p.2)

/-- Python truthiness of an optional string: None and the empty string are
falsy, every other string is truthy. -/
def pyTruthyStr (s : Option String) : Bool :=
  match s with
  | none => false
  | some t => !(t == "")

/-- Concrete stand-in vector distance used by closed witnesses and
counterexamples: absolute difference of the rational embeddings, so that the
distance of an embedding to itself is 0. -/
def absDist (a b : ℚ) : ℚ := if a ≤ b then b - a else a - b

/-- SQL three-valued comparison (a IS NULL AND b IS NULL OR a = b) used for
the time_range filter columns: two NULLs match, two equal values match, a
NULL never equals a value. -/
def sqlOptEq (a b : Option String) : Bool :=
  (a.isNone && b.isNone) ||
  (match a, b with
   | some x, some y => x == y
   | _, _ => false)

/-- Comparison step of the ORDER BY ... LIMIT 1 model: keep the candidate
from the rest of the rows only when it strictly precedes the current row. -/
def selectTopStep {α : Type} (better : α → α → Bool) (x : α) : Option α → Option α
  | none => some x
  | some y => if better y x then some y else some x

/-- ORDER BY ... LIMIT 1 over an unordered row set: returns the row that no
other row precedes under the strict priority relation better, keeping the
earlier row on full ties. -/
def selectTop {α : Type} (better : α → α → Bool) : List α → Option α
  | [] => none
  | x :: xs => selectTopStep better x (selectTop better xs)

/-! ### v1 client: url_cache and content_cache (cached_tavily_client.py) -/

/-- Row of the url_cache table written by CachedTavilyClient.update_url_cache:
query, enhanced_query, url, enhanced_query_embedding, expires_after_days,
created_at. -/
structure UrlCacheRow where
  query : String
  enhanced_query : Option String
  url : String
  embedding : ℚ
  expires_after_days : ℤ
  created_at : ℤ
deriving DecidableEq, Repr

/-- WHERE clause of the cached-URL lookup in _get_cached_urls: similarity
1 - distance at least 0.2 (inclusive >=) and CURRENT_TIMESTAMP strictly before
created_at + expires_after_days. -/
def urlRowMatches (dist : ℚ → ℚ → ℚ) (now : ℤ) (qEmb : ℚ) (r : UrlCacheRow) : Bool :=
  decide ((2 : ℚ)/10 ≤ 1 - dist r.embedding qEmb) &&
  decide (now < r.created_at + r.expires_after_days * 1440)

/-- Match set of _get_cached_urls: the url_cache rows passing the WHERE
clause, before DISTINCT ON and LIMIT. -/
def urlCacheMatchSet (dist : ℚ → ℚ → ℚ) (now : ℤ) (qEmb : ℚ)
    (table : List UrlCacheRow) : List UrlCacheRow :=
  table.filter (urlRowMatches dist now qEmb)

/-- Stable insertion step for the ORDER BY model. -/
def insertSorted {α : Type} (le : α → α → Bool) (x : α) : List α → List α
  | [] => [x]
  | y :: ys => if le x y then x :: y :: ys else y :: insertSorted le x ys

/-- Stable sort by a boolean comparison, modelling SQL ORDER BY. -/
def sortByKey {α : Type} (le : α → α → Bool) (l : List α) : List α :=
  l.foldr (insertSorted le) []

/-- DISTINCT ON (url): keep the first row of each url in sorted order. -/
def distinctByUrl (seen : List String) : List (String × ℚ) → List (String × ℚ)
  | [] => []
  | p :: rest =>
    if seen.contains p.1 then distinctByUrl seen rest
    else p :: distinctByUrl (p.1 :: seen) rest

/-- CachedTavilyClient._get_cached_urls (v1): SELECT DISTINCT ON (url) url,
similarity FROM url_cache WHERE similarity >= 0.2 AND unexpired ORDER BY url,
similarity DESC LIMIT max_results; returns the urls. -/
def get_cached_urls (dist : ℚ → ℚ → ℚ) (now : ℤ) (qEmb : ℚ)
    (table : List UrlCacheRow) (max_results : ℕ) : List String :=
  let ms := urlCacheMatchSet dist now qEmb table
  let pairs := ms.map (fun r => (r.url, 1 - dist r.embedding qEmb))
  let sorted := sortByKey
    (fun a b => decide (a.1 < b.1) || (a.1 == b.1 && decide (b.2 ≤ a.2))) pairs
  ((distinctByUrl [] sorted).take max_results).map (fun p => p.1)

/-- Uniqueness key of a url_cache row, the columns shared by conflicting
inserts from update_url_cache. -/
def urlCacheKey (r : UrlCacheRow) : String × Option String × String :=
  (r.query, r.enhanced_query, r.url)

/-- CachedTavilyClient.update_url_cache (v1): INSERT ... ON CONFLICT DO
NOTHING; when a row with the same uniqueness key is already present, the new
write is dropped and the table is unchanged. -/
def update_url_cache (table : List UrlCacheRow) (query : String)
    (enhanced_query : Option String) (url : String) (embedding : ℚ)
    (expires_after_days : ℤ) (now : ℤ) : List UrlCacheRow :=
  let row : UrlCacheRow :=
    ⟨query, enhanced_query, url, embedding, expires_after_days, now⟩
  if table.any (fun r => urlCacheKey r == urlCacheKey row) then table
  else table ++ [row]

/-- Row of the content_cache table: url (primary key), raw_content,
expires_after_days, created_at. -/
structure ContentCacheRow where
  url : String
  raw_content : String
  expires_after_days : ℤ
  created_at : ℤ
deriving DecidableEq, Repr

/-! ### v2 client: tavily_search_cache and search_cache_duration
(cached_tavily_client_v2.py) -/

/-- Cached Tavily response payload: the results list, items kept opaque. -/
structure TavilySearchResponse where
  results : List String
deriving DecidableEq, Repr

/-- Row of the tavily_search_cache table. -/
structure SearchCacheRow where
  query : String
  search_depth : String
  max_results : ℤ
  include_raw_content : Bool
  time_range : Option String
  exclude_domains : Option (List String)
  api_response : TavilySearchResponse
  embedding : ℚ
  creation_date : ℤ
  expires_after_minutes : ℤ
deriving DecidableEq, Repr

/-- WHERE clause of the cache lookup in _search_internal (v2): similarity
1 - distance strictly greater than 0.4, equal search_depth, cached
max_results at least the requested one, matching time_range, unexpired. -/
def searchRowMatches (dist : ℚ → ℚ → ℚ) (now : ℤ) (qEmb : ℚ)
    (search_depth : String) (max_results : ℤ) (time_range : Option String)
    (r : SearchCacheRow) : Bool :=
  decide ((4 : ℚ)/10 < 1 - dist r.embedding qEmb) &&
  (r.search_depth == search_depth) &&
  decide (max_results ≤ r.max_results) &&
  sqlOptEq r.time_range time_range &&
  decide (now < r.creation_date + r.expires_after_minutes)

/-- Match set of the _search_internal cache lookup: rows passing its WHERE
clause. -/
def searchCacheMatchSet (dist : ℚ → ℚ → ℚ) (now : ℤ) (qEmb : ℚ)
    (search_depth : String) (max_results : ℤ) (time_range : Option String)
    (table : List SearchCacheRow) : List SearchCacheRow :=
  table.filter (searchRowMatches dist now qEmb search_depth max_results time_range)

/-- ORDER BY max_results DESC, embedding distance ASC from _search_internal:
row a precedes row b when it has strictly larger max_results, or equal
max_results and strictly smaller distance to the query embedding. -/
def searchRowBefore (dist : ℚ → ℚ → ℚ) (qEmb : ℚ) (a b : SearchCacheRow) : Bool :=
  decide (b.max_results < a.max_results) ||
  (decide (a.max_results = b.max_results) &&
   decide (dist a.embedding qEmb < dist b.embedding qEmb))

/-- Cache lookup of _search_internal (v2): the WHERE filter followed by
ORDER BY max_results DESC, distance ASC LIMIT 1. -/
def search_cache_lookup (dist : ℚ → ℚ → ℚ) (now : ℤ) (qEmb : ℚ)
    (search_depth : String) (max_results : ℤ) (time_range : Option String)
    (table : List SearchCacheRow) : Option SearchCacheRow :=
  selectTop (searchRowBefore dist qEmb)
    (searchCacheMatchSet dist now qEmb search_depth max_results time_range table)

/-- Uniqueness key of tavily_search_cache: ON CONFLICT (query, search_depth,
time_range). -/
def searchCacheKey (r : SearchCacheRow) : String × String × Option String :=
  (r.query, r.search_depth, r.time_range)

/-- Expiry computed at the top of _cache_search_result: 1440 minutes for a
day time_range, 10080 for week, otherwise the dynamic cache_duration. -/
def searchCacheExpiry (time_range : Option String) (cache_duration : ℤ) : ℤ :=
  if time_range == some "day" then 1440
  else if time_range == some "week" then 10080
  else cache_duration

/-- Row inserted by _cache_search_result. -/
def mkSearchCacheRow (query : String) (query_embedding : ℚ)
    (response : TavilySearchResponse) (max_results : ℤ) (search_depth : String)
    (time_range : Option String) (cache_duration : ℤ) (include_raw_content : Bool)
    (exclude_domains : Option (List String)) (now : ℤ) : SearchCacheRow :=
  ⟨query, search_depth, max_results, include_raw_content, time_range,
   exclude_domains, response, query_embedding, now,
   searchCacheExpiry time_range cache_duration⟩

/-- CachedTavilyClient._cache_search_result (v2): computes the expiry from the
time_range and upserts with ON CONFLICT (query, search_depth, time_range) DO
UPDATE that overwrites every payload column with the new write. -/
def cache_search_result (table : List SearchCacheRow) (query : String)
    (query_embedding : ℚ) (response : TavilySearchResponse) (max_results : ℤ)
    (search_depth : String) (time_range : Option String) (cache_duration : ℤ)
    (include_raw_content : Bool) (exclude_domains : Option (List String))
    (now : ℤ) : List SearchCacheRow :=
  let row : SearchCacheRow := mkSearchCacheRow query query_embedding response
    max_results search_depth time_range cache_duration include_raw_content
    exclude_domains now
  if table.any (fun r => searchCacheKey r == searchCacheKey row) then
    table.map (fun r => if searchCacheKey r == searchCacheKey row then row else r)
  else table ++ [row]

/-- Row of the search_cache_duration table. -/
structure DurationCacheRow where
  query : String
  embedding : ℚ
  time_range : Option String
  cache_duration_minutes : ℤ
  creation_date : ℤ
  expires_after_minutes : ℤ
deriving DecidableEq, Repr

/-- WHERE clause of the check_cache lookup in _get_search_cache_duration:
similarity strictly greater than 0.4 and unexpired. -/
def durationRowMatches (dist : ℚ → ℚ → ℚ) (now : ℤ) (qEmb : ℚ)
    (r : DurationCacheRow) : Bool :=
  decide ((4 : ℚ)/10 < 1 - dist r.embedding qEmb) &&
  decide (now < r.creation_date + r.expires_after_minutes)

/-- Match set of the TTL-policy lookup: rows passing its WHERE clause. -/
def durationCacheMatchSet (dist : ℚ → ℚ → ℚ) (now : ℤ) (qEmb : ℚ)
    (table : List DurationCacheRow) : List DurationCacheRow :=
  table.filter (durationRowMatches dist now qEmb)

/-- ORDER BY embedding distance ASC for the TTL-policy lookup. -/
def durationRowBefore (dist : ℚ → ℚ → ℚ) (qEmb : ℚ) (a b : DurationCacheRow) : Bool :=
  decide (dist a.embedding qEmb < dist b.embedding qEmb)

/-- Cache lookup of _get_search_cache_duration: filter, ORDER BY distance ASC,
LIMIT 1. -/
def duration_cache_lookup (dist : ℚ → ℚ → ℚ) (now : ℤ) (qEmb : ℚ)
    (table : List DurationCacheRow) : Option DurationCacheRow :=
  selectTop (durationRowBefore dist qEmb) (durationCacheMatchSet dist now qEmb table)

/-- Structured output of the policy-reasoning collaborator and the decision
type returned by _get_search_cache_duration. -/
structure SearchParameters where
  time_range : Option String
  cache_duration_minutes : ℤ
deriving DecidableEq, Repr

/-- Time-range values accepted by the normalization step. -/
def allowedTimeRanges : List String := ["day", "week", "month", "year"]

/-- Normalization applied to the collaborator output in
_get_search_cache_duration: a truthy time_range outside the enum is replaced
by None; a falsy value (None or the empty string) is left as it is, and the
cache_duration_minutes is passed through unchanged. -/
def normalize_time_range (result : SearchParameters) : SearchParameters :=
  if pyTruthyStr result.time_range then
    match result.time_range with
    | some s =>
        if !(allowedTimeRanges.contains s) then { result with time_range := none }
        else result
    | none => result
  else result

/-- Default cache expiry of the v2 client, in minutes. -/
def CACHE_EXPIRY_MINUTES : ℤ := 14400

/-- CachedTavilyClient._get_search_cache_duration (v2): return a similarity
cache hit verbatim; on a miss, normalize the collaborator output, persist it
(keyed by query, expiring after CACHE_EXPIRY_MINUTES) and return it. The
second component is the row written on a miss. -/
def get_search_cache_duration (dist : ℚ → ℚ → ℚ) (now : ℤ) (query : String)
    (qEmb : ℚ) (table : List DurationCacheRow) (llmOut : SearchParameters) :
    SearchParameters × Option DurationCacheRow :=
  match duration_cache_lookup dist now qEmb table with
  | some r =>
      ({ time_range := r.time_range, cache_duration_minutes := r.cache_duration_minutes },
       none)
  | none =>
      let result := normalize_time_range llmOut
      (result,
       some ⟨query, qEmb, result.time_range, result.cache_duration_minutes,
             now, CACHE_EXPIRY_MINUTES⟩)

/-! ### v1 client: search and extract (cached_tavily_client.py) -/

/-- Fixed deny list of low-signal domains appended by CachedTavilyClient.search
before calling the raw provider. -/
def low_signal_domains : List String := ["facebook.com", "tiktok.com", "youtube.com"]

/-- Arguments of a raw Tavily search call issued by the v1 client: search is
invoked with query=enhanced_query and keyword arguments exclude_domains and
max_results; no time-range argument is supplied by the client itself, so the
time_range field records the argument carried by kwargs, none when absent. -/
structure ProviderSearchCallV1 where
  query : Option String
  exclude_domains : List String
  max_results : ℕ
  time_range : Option String
deriving DecidableEq, Repr

/-- Return value of v1 search: either the sentinel-scored cached URLs or the
raw provider response, kept opaque. -/
inductive SearchReturnV1 (ρ : Type) where
  | cachedUrls (results : List (String × ℤ))
  | providerResults (resp : ρ)
deriving DecidableEq, Repr

/-- CachedTavilyClient.search (v1): look up cached URLs by similarity, drop
those whose netloc is in exclude_domains, and return them with sentinel score
-1 when at least min_required_results remain; otherwise call the raw provider
exactly once with the caller's exclude_domains extended by the fixed deny
list. The second component lists the provider calls made and the third the
url_cache writes performed during the call (none on either path). -/
def searchV1 {ρ : Type} (dist : ℚ → ℚ → ℚ) (now : ℤ) (table : List UrlCacheRow)
    (provider : ProviderSearchCallV1 → ρ) (min_required_results : ℕ)
    (enhanced_query : Option String) (enhanced_query_embedding : ℚ)
    (exclude_domains : Option (List String)) (max_results : ℕ) :
    SearchReturnV1 ρ × List ProviderSearchCallV1 × List UrlCacheRow :=
  let cached := get_cached_urls dist now enhanced_query_embedding table max_results
  let cached := match exclude_domains with
    | some ds => cached.filter (fun u => !(ds.contains (netloc u)))
    | none => cached
  if min_required_results ≤ cached.length then
    (SearchReturnV1.cachedUrls (cached.map (fun u => (u, (-1 : ℤ)))), [], [])
  else
    let ex := (match exclude_domains with | some ds => ds | none => []) ++
      low_signal_domains
    let call : ProviderSearchCallV1 := ⟨enhanced_query, ex, max_results, none⟩
    (SearchReturnV1.providerResults (provider call), [call], [])

/-- Item of the results list of a raw Tavily extract response; raw_content is
read with result.get, so a missing value defaults to the empty string. -/
structure ExtractResultItem where
  url : String
  raw_content : Option String
deriving DecidableEq, Repr

/-- Item of the failed_results list of a raw Tavily extract response. -/
structure FailedResultItem where
  url : String
  error : String
deriving DecidableEq, Repr

/-- Raw Tavily extract response with its results and failed_results keys. -/
structure ExtractApiResponse where
  results : List ExtractResultItem
  failed_results : List FailedResultItem
deriving DecidableEq, Repr

/-- Arguments of one update_content_cache call issued by v1 extract. -/
structure ContentCacheWrite where
  url : String
  raw_content : String
  expires_after_days : ℤ
deriving DecidableEq, Repr

/-- Unexpired content-cache hits for the requested urls, as the url-keyed
dict cached_urls built at the top of v1 extract. -/
def extractCachedDict (now : ℤ) (cache : List ContentCacheRow)
    (urls : List String) : List (String × String) :=
  (cache.filter (fun r => urls.contains r.url &&
      decide (now < r.created_at + r.expires_after_days * 1440))).foldl
    (fun acc r => dictInsert acc r.url r.raw_content) []

/-- urls_to_extract of v1 extract: the requested urls missing from the cached
dict. -/
def extractUrlsToFetch (now : ℤ) (cache : List ContentCacheRow)
    (urls : List String) : List String :=
  urls.filter (fun u => (dictLookup (extractCachedDict now cache urls) u).isNone)

/-- Failed-results loop body of v1 extract: record the failed url with empty
content. -/
def extractFailedStep (acc : List (String × String)) (f : FailedResultItem) :
    List (String × String) :=
  dictInsert acc f.url ""

/-- Results loop body of v1 extract: record the extracted content (missing
raw_content defaults to the empty string) and issue an update_content_cache
call for it. -/
def extractResultsStep (expires_after_days : ℤ)
    (st : List (String × String) × List ContentCacheWrite)
    (r : ExtractResultItem) : List (String × String) × List ContentCacheWrite :=
  (dictInsert st.1 r.url (r.raw_content.getD ""),
   st.2 ++ [⟨r.url, r.raw_content.getD "", expires_after_days⟩])

/-- CachedTavilyClient.extract (v1): collect unexpired cached content for the
requested urls, call the raw extractor for the rest, record every failed url
in the combined dict with empty content, cache and record every entry of the
provider results list (whatever its content), and return one dict holding
only the results key, whose entries are (url, raw_content) pairs. The second
component lists the update_content_cache calls performed. -/
def extractV1 (now : ℤ) (cache : List ContentCacheRow) (urls : List String)
    (api : List String → ExtractApiResponse) (expires_after_days : ℤ) :
    List (String × List (String × String)) × List ContentCacheWrite :=
  let cached_urls := extractCachedDict now cache urls
  let urls_to_extract := extractUrlsToFetch now cache urls
  if urls_to_extract.isEmpty then
    ([("results", cached_urls)], [])
  else
    let fresh := api urls_to_extract
    let afterFailed := fresh.failed_results.foldl extractFailedStep cached_urls
    let final := fresh.results.foldl (extractResultsStep expires_after_days)
      (afterFailed, ([] : List ContentCacheWrite))
    ([("results", final.1)], final.2)

/-! ### web_searcher agent (web_searcher.py) -/

/-- Minimum number of validated results required by the web searcher. -/
def MIN_REQUIRED_RESULTS : ℕ := 1

/-- Methods defined on the v1 CachedTavilyClient class, read off
cached_tavily_client.py; web_searcher.py instantiates this client. The class
defines no delete_from_cache method. -/
def cachedTavilyClientV1Methods : List String :=
  ["_get_db_pool", "_get_cached_urls", "update_url_cache", "update_content_cache",
   "_upsert_query_log", "search", "extract", "close"]

/-- Domain-exclusion update written inside the try block of handle_bad_url
after the delete_from_cache call: append the netloc of the url when it is
nonempty and not yet present. -/
def record_bad_domain (url : String) (bad_domains : List String) : List String :=
  let domain := netloc url
  if !(domain == "") && !(bad_domains.contains domain) then bad_domains ++ [domain]
  else bad_domains

/-- handle_bad_url from web_searcher.process_node: its body is one try/except
whose first statement awaits tavily_client.delete_from_cache(url); the v1
client defines no such method (see cachedTavilyClientV1Methods), so the
attribute lookup raises AttributeError, the except branch swallows it, and
the domain append after the call never runs. -/
def handle_bad_url (url : String) (bad_domains : List String) : List String :=
  if cachedTavilyClientV1Methods.contains "delete_from_cache" then
    record_bad_domain url bad_domains
  else
    bad_domains

/-- Outcome of the content-extraction step of process_single_result for one
url, covering each branch of the source: an exception from the extract call,
a response that is no dict with a results key, an empty results list, a first
result without usable raw_content, or extracted text. -/
inductive ExtractionOutcome where
  | apiError (msg : String)
  | invalidFormat
  | noResults
  | noContent
  | content (text : String)
deriving DecidableEq, Repr

/-- Outcome of the summarize_content classification: the INVALID_CONTENT
marker or a markdown summary. -/
inductive SummaryOutcome where
  | invalidContent
  | summary (md : String)
deriving DecidableEq, Repr

/-- Content dict carried by a workflow message, after JSON decoding: the
fields a search result or processed result may carry. -/
structure ResultDoc where
  title : Option String
  url : Option String
  score : Option ℤ
  markdown_summary : Option String
  raw_content : Option String
  content : Option String
deriving DecidableEq, Repr

/-- process_single_result from web_searcher.process_node for one url with a
given extraction outcome and classification outcome: every failure branch
(extraction error, invalid response format, no extract results, invalid
content, irrelevant content) calls handle_bad_url, and only a valid summary
produces a processed result. Returns the optional processed result and the
bad_domains list after the call. -/
def process_single_result (url : String) (title : String) (score : ℤ)
    (ext : ExtractionOutcome) (cls : SummaryOutcome)
    (bad_domains : List String) : Option ResultDoc × List String :=
  match ext with
  | .invalidFormat => (none, handle_bad_url url bad_domains)
  | .noResults => (none, handle_bad_url url bad_domains)
  | .noContent => (none, handle_bad_url url bad_domains)
  | .apiError _ => (none, handle_bad_url url bad_domains)
  | .content _ =>
    match cls with
    | .invalidContent => (none, handle_bad_url url bad_domains)
    | .summary md =>
        (some ⟨some title, some url, some score, some md, none, none⟩, bad_domains)

/-- Event dict yielded by the inner search workflow stream, as consumed by
process_search_results_async: optional error, status, optional results list
(each message content an optional decoded dict; none models missing or
unparsable content) and an optional bad_domains key. -/
structure SearchEvent where
  error : Option String
  status : String
  results : Option (List (Option ResultDoc))
  bad_domains : Option (List String)
deriving DecidableEq, Repr

/-- Collection step of process_search_results_async for one message: skip
messages without content or url (or with a falsy url); store the dict under
its url when it has a markdown_summary key, or when raw_content or content is
truthy; uniqueness by url through dict assignment. -/
def collectResult (acc : List (String × ResultDoc)) (msg : Option ResultDoc) :
    List (String × ResultDoc) :=
  match msg with
  | none => acc
  | some d =>
    match d.url with
    | none => acc
    | some u =>
      if u == "" then acc
      else if d.markdown_summary.isSome then dictInsert acc u d
      else if pyTruthyStr d.raw_content || pyTruthyStr d.content then dictInsert acc u d
      else acc

/-- Workflow state of orchestrator.py (state.py WorkflowState), with typed
fields for every key the workflow reads or writes. -/
structure WState where
  original_query : String
  enhanced_query : Option String
  previous_enhanced_query : Option String
  enhanced_query_embedding : Option ℚ
  search_results : List ResultDoc
  infographic_content : Option String
  status : String
  error : Option String
  retry_count : ℕ
  bad_domains : List String
deriving DecidableEq, Repr

/-- Event loop of process_search_results_async: an error event sets error
status and replaces bad_domains with the event value (default empty); an
insufficient_results event returns early with that status, the retry count
read at entry, and bad_domains updated only when the event carries them; a
results event updates bad_domains when present and folds the messages into
the url-keyed dict; when the stream ends, search_results is replaced by the
collected dict values and the status set to continue. -/
def psraGo (st : WState) (acc : List (String × ResultDoc)) :
    List SearchEvent → WState
  | [] => { st with search_results := dictValues acc, status := "continue" }
  | e :: rest =>
    if e.error.isSome then
      { st with error := e.error, status := "error",
                bad_domains := e.bad_domains.getD [] }
    else if e.status == "insufficient_results" then
      { st with status := "insufficient_results", retry_count := st.retry_count,
                bad_domains := e.bad_domains.getD st.bad_domains }
    else
      match e.results with
      | some msgs =>
          psraGo { st with bad_domains := e.bad_domains.getD st.bad_domains }
            (msgs.foldl collectResult acc) rest
      | none => psraGo st acc rest

/-- process_search_results_async from web_searcher.py: run the event loop
with a fresh empty dict of processed results. -/
def process_search_results_async (st : WState) (events : List SearchEvent) : WState :=
  psraGo st [] events

/-- Values crossing the unawaited-call boundary in orchestrator.py: calling an
async function without await yields a coroutine object carrying the function's
name, never a state dict. -/
inductive PyObject where
  | stateDict (st : WState)
  | coroutine (name : String)

/-- dict.update in wrapped_query_interpreter: updating the state copy with
another full state dict overwrites every field, but the argument is a
coroutine object, on which dict.update raises TypeError. -/
def dictUpdate (st : WState) (other : PyObject) : Except String WState :=
  match st, other with
  | _, .stateDict st2 => Except.ok st2
  | _, .coroutine _ => Except.error "'coroutine' object is not iterable"

/-- orchestrator.py line 106: process_search_results is an async function and
wrapped_web_searcher calls it without await, so the call expression evaluates
to a coroutine object; the function body never runs. -/
def process_search_results_unawaited : WState → PyObject :=
  fun _ => PyObject.coroutine "process_search_results"

/-- wrapped_web_searcher from orchestrator.create_workflow_graph: count the
URLs, call process_search_results — without await, so the call yields a
coroutine object and result.get then raises AttributeError; on a state dict
(unreachable), lost URLs would have their netlocs appended to bad_domains
unless empty or already present. -/
def wrapped_web_searcher (st : WState) : Except String WState :=
  let urls_before := st.search_results.length
  match process_search_results_unawaited st with
  | PyObject.coroutine _ =>
    Except.error "'coroutine' object has no attribute 'get'"
  | PyObject.stateDict result =>
    let urls_after := result.search_results.length
    if urls_after < urls_before then
      let before_urls := st.search_results.filterMap (fun d => d.url)
      let after_urls := result.search_results.filterMap (fun d => d.url)
      let removed := before_urls.filter (fun u => !(after_urls.contains u))
      let bd := removed.foldl
        (fun bd u =>
          let domain := netloc u
          if !(domain == "") && !(bd.contains domain) then bd ++ [domain] else bd)
        result.bad_domains
      Except.ok { result with bad_domains := bd }
    else Except.ok result

/-! ### orchestrator state machine (orchestrator.py) -/

/-- Maximum number of search tries of the orchestrator. -/
def MAX_SEARCH_TRIES : ℕ := 3

/-- enhance_initial_query from query_interpreter.py: on an
insufficient_results status, increment the retry count, remember the previous
enhanced query and clear it; then fail when the OpenAI key is missing,
otherwise obtain a new enhanced query from the LLM collaborator (which sees
the original query and the previous_enhanced_query field), compute its
embedding and set the status to continue. -/
def enhance_initial_query (llm : String → Option String → String)
    (embed : String → ℚ) (openai_key_present : Bool) (st : WState) : WState :=
  let st :=
    if st.status == "insufficient_results" then
      { st with retry_count := st.retry_count + 1,
                previous_enhanced_query := st.enhanced_query,
                enhanced_query := none }
    else st
  if !openai_key_present then
    { st with
        error := some "Error enhancing query: OPENAI_API_KEY not found in environment variables",
        status := "error" }
  else
    let enhanced := llm st.original_query st.previous_enhanced_query
    { st with enhanced_query := some enhanced,
              enhanced_query_embedding := some (embed enhanced),
              status := "continue" }

/-- orchestrator.py line 85: enhance_initial_query is an async function and
wrapped_query_interpreter calls it without await, so the call expression
evaluates to a coroutine object; the function body never runs. -/
def enhance_initial_query_unawaited : WState → PyObject :=
  fun _ => PyObject.coroutine "enhance_initial_query"

/-- wrapped_query_interpreter from orchestrator.create_workflow_graph: compute
the retry count (previous count plus one on insufficient_results, else zero),
clear the enhanced query into previous_enhanced_query when retrying, call
enhance_initial_query — without await, so new_state.update receives a
coroutine object and raises TypeError before the retry count is ever
written. -/
def wrapped_query_interpreter (st : WState) : Except String WState :=
  let retry_count :=
    if st.status == "insufficient_results" then st.retry_count + 1 else 0
  let new_state := st
  let new_state :=
    if 0 < retry_count then
      { new_state with previous_enhanced_query := new_state.enhanced_query,
                       enhanced_query := none }
    else new_state
  let enhanced_state := enhance_initial_query_unawaited new_state
  match dictUpdate new_state enhanced_state with
  | Except.error msg => Except.error msg
  | Except.ok merged => Except.ok { merged with retry_count := retry_count }

/-- check_search_results from orchestrator.py: keep an insufficient_results
status while retries remain, switch it to continue when the budget is spent;
otherwise an empty search_results list is an error (No search results found)
and a nonempty one continues. -/
def check_search_results (st : WState) : WState :=
  if st.status == "insufficient_results" then
    if st.retry_count < MAX_SEARCH_TRIES then st
    else { st with status := "continue" }
  else if st.search_results.isEmpty then
    { st with error := some "No search results found", status := "error" }
  else { st with status := "continue" }

/-- handle_error from orchestrator.py as invoked by the handle_error node with
the fixed exception Workflow error: insufficient_results passes through, any
other status becomes a terminal error with the formatted message. -/
def handle_error_node (st : WState) : WState :=
  if st.status == "insufficient_results" then st
  else { st with error := some "Error in workflow: Workflow error",
                 status := "error" }

/-- Nodes of the orchestrator graph. -/
inductive Node where
  | query_interpreter
  | web_searcher
  | check_results
  | content_editor
  | handle_error
  | endNode
deriving DecidableEq, Repr

/-- route_after_search from orchestrator.py: error goes to the error handler;
insufficient_results with retry_count at least MAX_SEARCH_TRIES - 1 is
switched to continue and routed to check_results, with retries remaining it
loops to the query interpreter; anything else goes to check_results. The
status write performed inside the routing function is returned with the
state. -/
def route_after_search (st : WState) : Node × WState :=
  if st.status == "error" then (.handle_error, st)
  else if st.status == "insufficient_results" then
    if MAX_SEARCH_TRIES - 1 ≤ st.retry_count then
      (.check_results, { st with status := "continue" })
    else (.query_interpreter, st)
  else (.check_results, st)

/-- One node execution of the compiled orchestrator graph: run the node
function (an exception raised inside a node aborts the run with its message),
then the conditional edge decides the next node; none means a finish point
was reached. The interpreter and searcher nodes can raise; the content editor
cannot, because sync_edit_content catches every exception of its own body. -/
def stepNode (interp searcher : WState → Except String WState)
    (editor : WState → WState) :
    Node → WState → Except String (WState × Option Node)
  | .query_interpreter, st =>
    match interp st with
    | .error msg => .error msg
    | .ok st =>
      .ok (st, some (if st.status == "error" then .handle_error else .web_searcher))
  | .web_searcher, st =>
    match searcher st with
    | .error msg => .error msg
    | .ok st =>
      let next := route_after_search st
      .ok (next.2, some next.1)
  | .check_results, st =>
    let st := check_search_results st
    .ok (st, some (if st.status == "error" then .handle_error else .content_editor))
  | .content_editor, st =>
    let st := editor st
    .ok (st, some (if st.status == "error" then .handle_error else .endNode))
  | .handle_error, st => .ok (handle_error_node st, none)
  | .endNode, st => .ok (st, none)

/-- Initial state built by orchestrator.process_query. -/
def freshWorkflowState (query : String) : WState :=
  ⟨query, none, none, none, [], none, "started", none, 0, []⟩

/-- Insufficient-results event emitted by search_node when the provider
returned fewer than MIN_REQUIRED_RESULTS results: empty results, the
insufficient_results status and the attempt's bad_domains. -/
def insufficientSearchEvent (bad_domains : List String) : SearchEvent :=
  ⟨none, "insufficient_results", some [], some bad_domains⟩

/-- Fuel-bounded execution of the orchestrator graph: an uncaught exception in
a node aborts the run, recording its message and the nodes entered; otherwise
some final state and visited nodes when a finish point is reached within
fuel (the fuel is an artifact of the embedding, not of the code). -/
def runWorkflow (interp searcher : WState → Except String WState)
    (editor : WState → WState) :
    ℕ → Node → WState → Except (String × List Node) (Option (WState × List Node))
  | 0, _, _ => .ok none
  | fuel + 1, node, st =>
    match stepNode interp searcher editor node st with
    | .error msg => .error (msg, [node])
    | .ok (st1, none) => .ok (some (st1, [node]))
    | .ok (st1, some next) =>
      match runWorkflow interp searcher editor fuel next st1 with
      | .error (msg, trace) => .error (msg, node :: trace)
      | .ok (some (fin, trace)) => .ok (some (fin, node :: trace))
      | .ok none => .ok none

/-- Output record of orchestrator.process_query. -/
structure WorkflowOutput where
  original_query : String
  enhanced_query : Option String
  search_results : List ResultDoc
  infographic_content : String
  status : String
  error : Option String
  retry_count : ℕ
deriving DecidableEq, Repr

/-- process_query from orchestrator.py: build the fresh initial state, run the
compiled graph from its entry point query_interpreter, and package the final
state; any exception escaping graph.invoke is caught and mapped to the error
output with the Unexpected-error message, empty results and retry_count 0.
none only when the embedding's fuel runs out before a finish point. -/
def process_query (editor : WState → WState) (fuel : ℕ) (query : String) :
    Option WorkflowOutput :=
  match runWorkflow wrapped_query_interpreter wrapped_web_searcher editor fuel
      Node.query_interpreter (freshWorkflowState query) with
  | .error (msg, _) =>
    some ⟨query, none, [], "Error: No content could be generated", "error",
      some ("Unexpected error: " ++ msg), 0⟩
  | .ok (some (fin, _)) =>
    some ⟨fin.original_query, fin.enhanced_query, fin.search_results,
      fin.infographic_content.getD "No content generated", fin.status,
      fin.error, fin.retry_count⟩
  | .ok none => none

/-- Per-event collection step of process_search_results_async: fold the
messages of a results event into the url-keyed dict. -/
def collectEventStep (acc : List (String × ResultDoc)) (e : SearchEvent) :
    List (String × ResultDoc) :=
  match e.results with
  | some msgs => msgs.foldl collectResult acc
  | none => acc

/-- Stream predicate: every event passes the error and insufficiency checks,
so the loop of process_search_results_async runs to the end of the stream. -/
def eventsCompleteNormally : List SearchEvent → Bool
  | [] => true
  | e :: rest =>
    e.error.isNone && !(e.status == "insufficient_results") &&
      eventsCompleteNormally rest

/-- Stream predicate: the loop of process_search_results_async hits an
insufficient_results event before any error event. -/
def eventsStopInsufficient : List SearchEvent → Bool
  | [] => false
  | e :: rest =>
    if e.error.isSome then false
    else if e.status == "insufficient_results" then true
    else eventsStopInsufficient rest

/-- Results a normally completing attempt stores: all results events folded
into the url-keyed dict, starting from the empty dict of this attempt. -/
def attemptResults (events : List SearchEvent) : List ResultDoc :=
  dictValues (events.foldl collectEventStep [])

/-! ## Helper lemmas -/

theorem sqlOptEq_refl (a : Option String) : sqlOptEq a a = true := by
  cases a <;> simp [sqlOptEq]

theorem selectTopStep_ne_none {α : Type} (better : α → α → Bool) (x : α)
    (o : Option α) : selectTopStep better x o ≠ none := by
  cases o with
  | none => simp [selectTopStep]
  | some y => simp only [selectTopStep]; split <;> simp

theorem selectTop_eq_none {α : Type} (better : α → α → Bool) (l : List α)
    (h : selectTop better l = none) : l = [] := by
  cases l with
  | nil => rfl
  | cons x xs => exact absurd h (selectTopStep_ne_none better x _)

theorem selectTop_mem {α : Type} (better : α → α → Bool) :
    ∀ (l : List α) (r : α), selectTop better l = some r → r ∈ l := by
  intro l
  induction l with
  | nil => intro r h; simp [selectTop] at h
  | cons x xs ih =>
    intro r h
    rw [selectTop] at h
    cases hxs : selectTop better xs with
    | none =>
      rw [hxs] at h
      simp only [selectTopStep, Option.some_inj] at h
      rw [← h]
      exact List.mem_cons_self x xs
    | some y =>
      rw [hxs] at h
      simp only [selectTopStep] at h
      split at h
      · simp only [Option.some_inj] at h
        rw [← h]
        exact List.mem_cons_of_mem x (ih y hxs)
      · simp only [Option.some_inj] at h
        rw [← h]
        exact List.mem_cons_self x xs

theorem selectTop_maximal {α : Type} (better : α → α → Bool)
    (hneg : ∀ a b c, better a b = false → better b c = false → better a c = false)
    (hirr : ∀ a, better a a = false)
    (hasym : ∀ a b, better a b = true → better b a = false) :
    ∀ (l : List α) (r : α), selectTop better l = some r →
      ∀ x ∈ l, better x r = false := by
  intro l
  induction l with
  | nil => intro r h; simp [selectTop] at h
  | cons x xs ih =>
    intro r h z hz
    rw [selectTop] at h
    cases hxs : selectTop better xs with
    | none =>
      rw [hxs] at h
      simp only [selectTopStep, Option.some_inj] at h
      have hxs0 : xs = [] := selectTop_eq_none better xs hxs
      subst hxs0
      simp only [List.mem_singleton] at hz
      rw [← h, hz]
      exact hirr x
    | some y =>
      rw [hxs] at h
      simp only [selectTopStep] at h
      split at h
      · rename_i hb
        simp only [Option.some_inj] at h
        rw [← h]
        rcases List.mem_cons.mp hz with hzx | hzxs
        · rw [hzx]; exact hasym _ _ hb
        · exact ih y hxs z hzxs
      · rename_i hb
        simp only [Option.some_inj] at h
        rw [← h]
        rcases List.mem_cons.mp hz with hzx | hzxs
        · rw [hzx]; exact hirr x
        · exact hneg z y x (ih y hxs z hzxs) (by simpa using hb)

theorem searchRowBefore_irrefl (dist : ℚ → ℚ → ℚ) (qEmb : ℚ) (a : SearchCacheRow) :
    searchRowBefore dist qEmb a a = false := by
  simp [searchRowBefore]

theorem searchRowBefore_asym (dist : ℚ → ℚ → ℚ) (qEmb : ℚ) (a b : SearchCacheRow)
    (h : searchRowBefore dist qEmb a b = true) : searchRowBefore dist qEmb b a = false := by
  simp only [searchRowBefore, Bool.or_eq_true, Bool.and_eq_true, decide_eq_true_eq] at h
  simp only [searchRowBefore, Bool.or_eq_false_iff, Bool.and_eq_false_iff,
    decide_eq_false_iff_not]
  rcases h with h | ⟨h1, h2⟩
  · exact ⟨by omega, Or.inl (by omega)⟩
  · exact ⟨by omega, Or.inr (by linarith)⟩

theorem searchRowBefore_negtrans (dist : ℚ → ℚ → ℚ) (qEmb : ℚ) (a b c : SearchCacheRow)
    (hab : searchRowBefore dist qEmb a b = false)
    (hbc : searchRowBefore dist qEmb b c = false) :
    searchRowBefore dist qEmb a c = false := by
  simp only [searchRowBefore, Bool.or_eq_false_iff, Bool.and_eq_false_iff,
    decide_eq_false_iff_not] at hab hbc ⊢
  obtain ⟨hab1, hab2⟩ := hab
  obtain ⟨hbc1, hbc2⟩ := hbc
  constructor
  · omega
  · by_cases hac : a.max_results = c.max_results
    · have heq1 : a.max_results = b.max_results := by omega
      have heq2 : b.max_results = c.max_results := by omega
      rcases hab2 with h | h
      · exact absurd heq1 h
      · rcases hbc2 with h2 | h2
        · exact absurd heq2 h2
        · right
          have hle1 : dist b.embedding qEmb ≤ dist a.embedding qEmb := le_of_not_lt h
          have hle2 : dist c.embedding qEmb ≤ dist b.embedding qEmb := le_of_not_lt h2
          intro hlt
          linarith
    · left; exact hac

theorem searchRowMatches_true_intro (dist : ℚ → ℚ → ℚ) (now : ℤ) (qEmb : ℚ)
    (depth : String) (mr : ℤ) (tr : Option String) (r : SearchCacheRow)
    (h1 : (4 : ℚ)/10 < 1 - dist r.embedding qEmb) (h2 : r.search_depth = depth)
    (h3 : mr ≤ r.max_results) (h4 : sqlOptEq r.time_range tr = true)
    (h5 : now < r.creation_date + r.expires_after_minutes) :
    searchRowMatches dist now qEmb depth mr tr r = true := by
  unfold searchRowMatches
  rw [decide_eq_true h1, decide_eq_true h3, decide_eq_true h5, h4, h2]
  simp

theorem searchRowMatches_false_of_sim_not_gt (dist : ℚ → ℚ → ℚ) (now : ℤ)
    (qEmb : ℚ) (depth : String) (mr : ℤ) (tr : Option String) (r : SearchCacheRow)
    (h : ¬ ((4 : ℚ)/10 < 1 - dist r.embedding qEmb)) :
    searchRowMatches dist now qEmb depth mr tr r = false := by
  unfold searchRowMatches
  rw [decide_eq_false h]
  simp

theorem searchRowBefore_true_of_lt (dist : ℚ → ℚ → ℚ) (qEmb : ℚ)
    (a b : SearchCacheRow) (h : b.max_results < a.max_results) :
    searchRowBefore dist qEmb a b = true := by
  unfold searchRowBefore
  rw [decide_eq_true h]
  simp

theorem urlRowMatches_true_intro (dist : ℚ → ℚ → ℚ) (now : ℤ) (qEmb : ℚ)
    (r : UrlCacheRow) (h1 : (2 : ℚ)/10 ≤ 1 - dist r.embedding qEmb)
    (h2 : now < r.created_at + r.expires_after_days * 1440) :
    urlRowMatches dist now qEmb r = true := by
  unfold urlRowMatches
  rw [decide_eq_true h1, decide_eq_true h2]
  simp

theorem durationRowMatches_false_of_sim_not_gt (dist : ℚ → ℚ → ℚ) (now : ℤ)
    (qEmb : ℚ) (r : DurationCacheRow)
    (h : ¬ ((4 : ℚ)/10 < 1 - dist r.embedding qEmb)) :
    durationRowMatches dist now qEmb r = false := by
  unfold durationRowMatches
  rw [decide_eq_false h]
  simp

/-! ## C3: similarity thresholds -/

/-- C3 counterexample: an unexpired tavily_search_cache row whose similarity
to the query embedding is exactly the configured threshold 0.4 and which
passes every equality filter is NOT included in the match set of the
_search_internal cache lookup, because the v2 clients compare with a strict
greater-than; the claim says an at-threshold entry is included. -/
theorem similarity_threshold_counterexample :
    1 - absDist (6/10 : ℚ) 0 = (4 : ℚ)/10 ∧
    ((0 : ℤ) < 0 + 100) ∧
    (⟨"q", "advanced", 5, false, none, none, ⟨[]⟩, 6/10, 0, 100⟩ : SearchCacheRow) ∉
      searchCacheMatchSet absDist 0 0 "advanced" 5 none
        [⟨"q", "advanced", 5, false, none, none, ⟨[]⟩, 6/10, 0, 100⟩] := by
  have hm : searchRowMatches absDist 0 0 "advanced" 5 none
      ⟨"q", "advanced", 5, false, none, none, ⟨[]⟩, 6/10, 0, 100⟩ = false :=
    searchRowMatches_false_of_sim_not_gt absDist 0 0 "advanced" 5 none _
      (by norm_num [absDist])
  refine ⟨by norm_num [absDist], by norm_num, ?_⟩
  intro hmem
  have hmatch := List.of_mem_filter hmem
  rw [hm] at hmatch
  exact Bool.false_ne_true hmatch

/-- C3 (amended): the url-cache lookup of the v1 client includes an unexpired
entry whose similarity is exactly 0.2 (comparison >=) and every entry of its
match set has similarity at least 0.2; the v2 search-cache and TTL-policy
lookups use a strict comparison, so an entry at exactly 0.4 is excluded and
every entry of those match sets has similarity strictly above 0.4. In all
three lookups an entry strictly below the threshold is excluded. -/
theorem similarity_threshold_amended (dist : ℚ → ℚ → ℚ) (now : ℤ) (qEmb : ℚ) :
    (∀ r : UrlCacheRow, now < r.created_at + r.expires_after_days * 1440 →
        1 - dist r.embedding qEmb = (2 : ℚ)/10 →
        urlRowMatches dist now qEmb r = true) ∧
    (∀ (table : List UrlCacheRow) (r : UrlCacheRow),
        r ∈ urlCacheMatchSet dist now qEmb table →
        (2 : ℚ)/10 ≤ 1 - dist r.embedding qEmb) ∧
    (∀ (depth : String) (mr : ℤ) (tr : Option String) (s : SearchCacheRow),
        1 - dist s.embedding qEmb = (4 : ℚ)/10 →
        searchRowMatches dist now qEmb depth mr tr s = false) ∧
    (∀ (depth : String) (mr : ℤ) (tr : Option String) (table : List SearchCacheRow)
        (s : SearchCacheRow),
        s ∈ searchCacheMatchSet dist now qEmb depth mr tr table →
        (4 : ℚ)/10 < 1 - dist s.embedding qEmb) ∧
    (∀ d : DurationCacheRow, 1 - dist d.embedding qEmb = (4 : ℚ)/10 →
        durationRowMatches dist now qEmb d = false) ∧
    (∀ (table : List DurationCacheRow) (d : DurationCacheRow),
        d ∈ durationCacheMatchSet dist now qEmb table →
        (4 : ℚ)/10 < 1 - dist d.embedding qEmb) := by
  refine ⟨?_, ?_, ?_, ?_, ?_, ?_⟩
  · intro r hexp hsim
    simp only [urlRowMatches, Bool.and_eq_true, decide_eq_true_eq]
    exact ⟨le_of_eq hsim.symm, hexp⟩
  · intro table r hr
    have := List.of_mem_filter hr
    simp only [urlRowMatches, Bool.and_eq_true, decide_eq_true_eq] at this
    exact this.1
  · intro depth mr tr s hsim
    simp only [searchRowMatches, hsim, Bool.and_eq_false_iff]
    left; left; left; left
    simp
  · intro depth mr tr table s hs
    have := List.of_mem_filter hs
    simp only [searchRowMatches, Bool.and_eq_true, decide_eq_true_eq] at this
    exact this.1.1.1.1
  · intro d hsim
    simp only [durationRowMatches, hsim, Bool.and_eq_false_iff]
    left
    simp
  · intro table d hd
    have := List.of_mem_filter hd
    simp only [durationRowMatches, Bool.and_eq_true, decide_eq_true_eq] at this
    exact this.1

/-- C3 witness: the amended threshold theorem applied at concrete rows with
similarity exactly at the thresholds. -/
theorem similarity_threshold_amended_witness :
    urlRowMatches absDist 0 0 ⟨"q", none, "http://a.com/1", 8/10, 1, 0⟩ = true ∧
    searchRowMatches absDist 0 0 "advanced" 5 none
      ⟨"q", "advanced", 5, false, none, none, ⟨[]⟩, 6/10, 0, 100⟩ = false ∧
    durationRowMatches absDist 0 0 ⟨"q", 6/10, none, 60, 0, 100⟩ = false := by
  refine ⟨(similarity_threshold_amended absDist 0 0).1 _ (by norm_num)
      (by norm_num [absDist]),
    (similarity_threshold_amended absDist 0 0).2.2.1 "advanced" 5 none _
      (by norm_num [absDist]),
    (similarity_threshold_amended absDist 0 0).2.2.2.2.1 _ (by norm_num [absDist])⟩

/-! ## C7: search-cache lookup ordering -/

/-- C7 counterexample: two unexpired matching rows, one with similarity 0.9
and max_results 5, one with similarity 0.5 and max_results 10; the lookup
returns the second because ORDER BY sorts by max_results first, while the
claim says the entry with the highest similarity is returned. -/
theorem lookup_ordering_counterexample :
    search_cache_lookup absDist 0 0 "advanced" 5 none
      [⟨"qa", "advanced", 5, false, none, none, ⟨["a"]⟩, 1/10, 0, 100⟩,
       ⟨"qb", "advanced", 10, false, none, none, ⟨["b"]⟩, 5/10, 0, 100⟩] =
      some ⟨"qb", "advanced", 10, false, none, none, ⟨["b"]⟩, 5/10, 0, 100⟩ ∧
    (⟨"qa", "advanced", 5, false, none, none, ⟨["a"]⟩, 1/10, 0, 100⟩ : SearchCacheRow) ∈
      searchCacheMatchSet absDist 0 0 "advanced" 5 none
        [⟨"qa", "advanced", 5, false, none, none, ⟨["a"]⟩, 1/10, 0, 100⟩,
         ⟨"qb", "advanced", 10, false, none, none, ⟨["b"]⟩, 5/10, 0, 100⟩] ∧
    1 - absDist (5/10 : ℚ) 0 < 1 - absDist (1/10 : ℚ) 0 := by
  have hA : searchRowMatches absDist 0 0 "advanced" 5 none
      ⟨"qa", "advanced", 5, false, none, none, ⟨["a"]⟩, 1/10, 0, 100⟩ = true :=
    searchRowMatches_true_intro absDist 0 0 "advanced" 5 none _
      (by norm_num [absDist]) rfl (by norm_num) rfl (by norm_num)
  have hB : searchRowMatches absDist 0 0 "advanced" 5 none
      ⟨"qb", "advanced", 10, false, none, none, ⟨["b"]⟩, 5/10, 0, 100⟩ = true :=
    searchRowMatches_true_intro absDist 0 0 "advanced" 5 none _
      (by norm_num [absDist]) rfl (by norm_num) rfl (by norm_num)
  have hMS : searchCacheMatchSet absDist 0 0 "advanced" 5 none
      [⟨"qa", "advanced", 5, false, none, none, ⟨["a"]⟩, 1/10, 0, 100⟩,
       ⟨"qb", "advanced", 10, false, none, none, ⟨["b"]⟩, 5/10, 0, 100⟩] =
      [⟨"qa", "advanced", 5, false, none, none, ⟨["a"]⟩, 1/10, 0, 100⟩,
       ⟨"qb", "advanced", 10, false, none, none, ⟨["b"]⟩, 5/10, 0, 100⟩] := by
    simp only [searchCacheMatchSet, List.filter_cons, List.filter_nil, hA, hB]
    simp
  have hBA : searchRowBefore absDist 0
      ⟨"qb", "advanced", 10, false, none, none, ⟨["b"]⟩, 5/10, 0, 100⟩
      ⟨"qa", "advanced", 5, false, none, none, ⟨["a"]⟩, 1/10, 0, 100⟩ = true :=
    searchRowBefore_true_of_lt absDist 0 _ _ (by norm_num)
  refine ⟨?_, ?_, by norm_num [absDist]⟩
  · unfold search_cache_lookup
    rw [hMS]
    simp only [selectTop, selectTopStep, hBA]
    simp
  · rw [hMS]
    exact List.mem_cons_self _ _

/-- C7 (amended): when the v2 search-cache lookup returns a row, that row is
in the match set and is maximal first by max_results and only then by
similarity: every other matching row has max_results at most the returned one,
and on equal max_results the returned row is at least as close to the query
embedding. -/
theorem lookup_ordering_amended (dist : ℚ → ℚ → ℚ) (now : ℤ) (qEmb : ℚ)
    (depth : String) (mr : ℤ) (tr : Option String) (table : List SearchCacheRow)
    (r : SearchCacheRow)
    (h : search_cache_lookup dist now qEmb depth mr tr table = some r) :
    r ∈ searchCacheMatchSet dist now qEmb depth mr tr table ∧
    ∀ s ∈ searchCacheMatchSet dist now qEmb depth mr tr table,
      s.max_results ≤ r.max_results ∧
      (s.max_results = r.max_results → dist r.embedding qEmb ≤ dist s.embedding qEmb) := by
  constructor
  · exact selectTop_mem _ _ _ h
  · intro s hs
    have hmax := selectTop_maximal (searchRowBefore dist qEmb)
      (searchRowBefore_negtrans dist qEmb) (searchRowBefore_irrefl dist qEmb)
      (searchRowBefore_asym dist qEmb) _ r h s hs
    simp only [searchRowBefore, Bool.or_eq_false_iff, Bool.and_eq_false_iff,
      decide_eq_false_iff_not] at hmax
    refine ⟨by omega, fun heq => ?_⟩
    rcases hmax.2 with h2 | h2
    · omega
    · exact le_of_not_lt h2

/-- C7 witness: the amended ordering theorem applied to the concrete two-row
table; the returned row has the larger max_results. -/
theorem lookup_ordering_amended_witness :
    (⟨"qb", "advanced", 10, false, none, none, ⟨["b"]⟩, 5/10, 0, 100⟩ : SearchCacheRow) ∈
      searchCacheMatchSet absDist 0 0 "advanced" 5 none
        [⟨"qa", "advanced", 5, false, none, none, ⟨["a"]⟩, 1/10, 0, 100⟩,
         ⟨"qb", "advanced", 10, false, none, none, ⟨["b"]⟩, 5/10, 0, 100⟩] ∧
    ∀ s ∈ searchCacheMatchSet absDist 0 0 "advanced" 5 none
        [⟨"qa", "advanced", 5, false, none, none, ⟨["a"]⟩, 1/10, 0, 100⟩,
         ⟨"qb", "advanced", 10, false, none, none, ⟨["b"]⟩, 5/10, 0, 100⟩],
      s.max_results ≤ 10 ∧
      (s.max_results = (10 : ℤ) →
        absDist (5/10 : ℚ) 0 ≤ absDist s.embedding 0) := by
  have h := lookup_ordering_amended absDist 0 0 "advanced" 5 none
    [⟨"qa", "advanced", 5, false, none, none, ⟨["a"]⟩, 1/10, 0, 100⟩,
     ⟨"qb", "advanced", 10, false, none, none, ⟨["b"]⟩, 5/10, 0, 100⟩]
    ⟨"qb", "advanced", 10, false, none, none, ⟨["b"]⟩, 5/10, 0, 100⟩
    (by
      have hA : searchRowMatches absDist 0 0 "advanced" 5 none
          ⟨"qa", "advanced", 5, false, none, none, ⟨["a"]⟩, 1/10, 0, 100⟩ = true :=
        searchRowMatches_true_intro absDist 0 0 "advanced" 5 none _
          (by norm_num [absDist]) rfl (by norm_num) rfl (by norm_num)
      have hB : searchRowMatches absDist 0 0 "advanced" 5 none
          ⟨"qb", "advanced", 10, false, none, none, ⟨["b"]⟩, 5/10, 0, 100⟩ = true :=
        searchRowMatches_true_intro absDist 0 0 "advanced" 5 none _
          (by norm_num [absDist]) rfl (by norm_num) rfl (by norm_num)
      have hBA : searchRowBefore absDist 0
          ⟨"qb", "advanced", 10, false, none, none, ⟨["b"]⟩, 5/10, 0, 100⟩
          ⟨"qa", "advanced", 5, false, none, none, ⟨["a"]⟩, 1/10, 0, 100⟩ = true :=
        searchRowBefore_true_of_lt absDist 0 _ _ (by norm_num)
      unfold search_cache_lookup
      rw [show searchCacheMatchSet absDist 0 0 "advanced" 5 none
          [⟨"qa", "advanced", 5, false, none, none, ⟨["a"]⟩, 1/10, 0, 100⟩,
           ⟨"qb", "advanced", 10, false, none, none, ⟨["b"]⟩, 5/10, 0, 100⟩] =
          [⟨"qa", "advanced", 5, false, none, none, ⟨["a"]⟩, 1/10, 0, 100⟩,
           ⟨"qb", "advanced", 10, false, none, none, ⟨["b"]⟩, 5/10, 0, 100⟩] from by
        simp only [searchCacheMatchSet, List.filter_cons, List.filter_nil, hA, hB]
        simp]
      simp only [selectTop, selectTopStep, hBA]
      simp)
  exact h

/-! ## C8: TTL decision normalization -/

/-- C8 counterexample: on a cache miss with collaborator output time_range
"decade" and duration 200000, the engine returns duration 200000, outside
[0, 131400]; the claim says the duration is clamped into that interval. The
out-of-enum time_range is normalized to none as claimed. -/
theorem ttl_decision_counterexample :
    (get_search_cache_duration absDist 0 "q" 0 [] ⟨some "decade", 200000⟩).1 =
      ⟨none, 200000⟩ ∧ ¬((200000 : ℤ) ≤ 131400) := by
  constructor
  · rfl
  · decide

/-- C8 (amended): on a cache miss the decision returned by
_get_search_cache_duration is exactly the normalized collaborator output: a
truthy time_range outside day/week/month/year becomes none (a falsy non-null
value such as the empty string passes through unchanged), and
cache_duration_minutes is passed through without any clamping. -/
theorem ttl_decision_amended (dist : ℚ → ℚ → ℚ) (now : ℤ) (query : String)
    (qEmb : ℚ) (table : List DurationCacheRow) (llmOut : SearchParameters)
    (hmiss : duration_cache_lookup dist now qEmb table = none) :
    (get_search_cache_duration dist now query qEmb table llmOut).1 =
      normalize_time_range llmOut ∧
    (normalize_time_range llmOut).cache_duration_minutes =
      llmOut.cache_duration_minutes ∧
    (∀ s, pyTruthyStr llmOut.time_range = true →
        (normalize_time_range llmOut).time_range = some s →
        s ∈ allowedTimeRanges) := by
  refine ⟨?_, ?_, ?_⟩
  · simp [get_search_cache_duration, hmiss]
  · unfold normalize_time_range
    split
    · split
      · split <;> rfl
      · rfl
    · rfl
  · intro s htruthy hsome
    unfold normalize_time_range at hsome
    rw [if_pos htruthy] at hsome
    cases htr : llmOut.time_range with
    | none => simp [pyTruthyStr, htr] at htruthy
    | some t =>
      rw [htr] at hsome
      by_cases hc : allowedTimeRanges.contains t
      · simp only [hc, Bool.not_true, if_neg] at hsome
        simp at hsome
        rw [htr] at hsome
        simp at hsome
        subst hsome
        simpa using hc
      · have hc3 : t ∉ allowedTimeRanges := by simpa using hc
        simp [hc3] at hsome

/-- C8 witness: the amended decision theorem applied on an empty policy cache
with a collaborator output inside the enum. -/
theorem ttl_decision_amended_witness :
    (get_search_cache_duration absDist 0 "latest news" 0 [] ⟨some "week", 360⟩).1 =
      normalize_time_range ⟨some "week", 360⟩ ∧
    (normalize_time_range (⟨some "week", 360⟩ : SearchParameters)).cache_duration_minutes =
      (360 : ℤ) ∧
    (∀ s, pyTruthyStr (some "week") = true →
        (normalize_time_range ⟨some "week", 360⟩).time_range = some s →
        s ∈ allowedTimeRanges) :=
  ttl_decision_amended absDist 0 "latest news" 0 [] ⟨some "week", 360⟩ rfl
/-! ## C4: upsert semantics -/

theorem any_eq_false_of_all_not {α : Type} (p : α → Bool) (l : List α)
    (h : l.all (fun x => !(p x)) = true) : l.any p = false := by
  induction l with
  | nil => rfl
  | cons x xs ih =>
    simp only [List.all_cons, Bool.and_eq_true, Bool.not_eq_true'] at h
    simp only [List.any_cons, Bool.or_eq_false_iff]
    exact ⟨h.1, ih h.2⟩

theorem filter_eq_nil_of_all_not {α : Type} (p : α → Bool) (l : List α)
    (h : l.all (fun x => !(p x)) = true) : l.filter p = [] := by
  induction l with
  | nil => rfl
  | cons x xs ih =>
    simp only [List.all_cons, Bool.and_eq_true, Bool.not_eq_true'] at h
    rw [List.filter_cons]
    rw [ih h.2]
    simp [h.1]

theorem map_replace_eq_self {α : Type} (p : α → Bool) (row : α) (l : List α)
    (h : l.all (fun x => !(p x)) = true) :
    l.map (fun x => if p x then row else x) = l := by
  induction l with
  | nil => rfl
  | cons x xs ih =>
    simp only [List.all_cons, Bool.and_eq_true, Bool.not_eq_true'] at h
    simp only [List.map_cons]
    rw [ih h.2]
    simp [h.1]

theorem searchCacheKey_mk (q : String) (emb : ℚ) (resp : TavilySearchResponse)
    (mr : ℤ) (depth : String) (tr : Option String) (cd : ℤ) (irc : Bool)
    (ed : Option (List String)) (t : ℤ) :
    searchCacheKey (mkSearchCacheRow q emb resp mr depth tr cd irc ed t) =
      (q, depth, tr) := rfl

theorem urlCacheKey_mk (q : String) (eq : Option String) (u : String) (emb : ℚ)
    (d t : ℤ) : urlCacheKey ⟨q, eq, u, emb, d, t⟩ = (q, eq, u) := rfl

theorem cache_search_result_fresh (table : List SearchCacheRow) (q : String)
    (emb : ℚ) (resp : TavilySearchResponse) (mr : ℤ) (depth : String)
    (tr : Option String) (cd : ℤ) (irc : Bool) (ed : Option (List String))
    (t : ℤ)
    (h : table.any (fun r => searchCacheKey r == (q, depth, tr)) = false) :
    cache_search_result table q emb resp mr depth tr cd irc ed t =
      table ++ [mkSearchCacheRow q emb resp mr depth tr cd irc ed t] := by
  simp only [cache_search_result, searchCacheKey_mk]
  simp [h]

theorem cache_search_result_conflict (table : List SearchCacheRow) (q : String)
    (emb : ℚ) (resp : TavilySearchResponse) (mr : ℤ) (depth : String)
    (tr : Option String) (cd : ℤ) (irc : Bool) (ed : Option (List String))
    (t : ℤ)
    (h : table.any (fun r => searchCacheKey r == (q, depth, tr)) = true) :
    cache_search_result table q emb resp mr depth tr cd irc ed t =
      table.map (fun r => if searchCacheKey r == (q, depth, tr) then
        mkSearchCacheRow q emb resp mr depth tr cd irc ed t else r) := by
  simp only [cache_search_result, searchCacheKey_mk]
  simp [h]

theorem update_url_cache_fresh (table : List UrlCacheRow) (q : String)
    (eq : Option String) (u : String) (emb : ℚ) (d t : ℤ)
    (h : table.any (fun r => urlCacheKey r == (q, eq, u)) = false) :
    update_url_cache table q eq u emb d t = table ++ [⟨q, eq, u, emb, d, t⟩] := by
  simp only [update_url_cache, urlCacheKey_mk]
  simp [h]

theorem update_url_cache_conflict (table : List UrlCacheRow) (q : String)
    (eq : Option String) (u : String) (emb : ℚ) (d t : ℤ)
    (h : table.any (fun r => urlCacheKey r == (q, eq, u)) = true) :
    update_url_cache table q eq u emb d t = table := by
  simp only [update_url_cache, urlCacheKey_mk]
  simp [h]

/-- C4 counterexample: upserting twice into url_cache with the same
uniqueness key keeps the first write (INSERT ... ON CONFLICT DO NOTHING):
after writing expires_after_days 1 and then 2, the single stored row still
carries 1. The claim says the retrievable row equals the second write. -/
theorem url_cache_upsert_counterexample :
    update_url_cache
      (update_url_cache [] "q" (some "eq") "http://example.com/a" 0 1 0)
      "q" (some "eq") "http://example.com/a" 0 2 5 =
      [⟨"q", some "eq", "http://example.com/a", 0, 1, 0⟩] ∧ (1 : ℤ) ≠ 2 := by
  constructor
  · rfl
  · omega

/-- C4 (amended): the v2 search cache (ON CONFLICT ... DO UPDATE) is
last-write-wins: on a table without the key, upserting twice under the same
(query, search_depth, time_range) key leaves exactly one row with that key
and it equals the second write; the v1 url_cache (ON CONFLICT DO NOTHING) is
first-write-wins: the one retrievable row equals the first write; and a
store into the v2 search cache followed by an unexpired lookup with the same
query embedding returns the stored payload. -/
theorem cache_upsert_amended (dist : ℚ → ℚ → ℚ)
    (tableS : List SearchCacheRow) (q : String) (emb : ℚ)
    (resp1 resp2 : TavilySearchResponse) (mr1 mr2 : ℤ) (depth : String)
    (tr : Option String) (cd1 cd2 : ℤ) (irc1 irc2 : Bool)
    (ed1 ed2 : Option (List String)) (t1 t2 : ℤ)
    (tableU : List UrlCacheRow) (uq : String) (ueq : Option String) (u : String)
    (uemb1 uemb2 : ℚ) (d1 d2 : ℤ) (ut1 ut2 : ℤ)
    (resp : TavilySearchResponse) (mr : ℤ) (cd : ℤ) (irc : Bool)
    (ed : Option (List String)) (t now2 : ℤ)
    (hfreshS : tableS.all (fun r => !(searchCacheKey r == (q, depth, tr))) = true)
    (hfreshU : tableU.all (fun r => !(urlCacheKey r == (uq, ueq, u))) = true)
    (hself : dist emb emb = 0)
    (hexp : now2 < t + searchCacheExpiry tr cd) :
    ((cache_search_result (cache_search_result tableS q emb resp1 mr1 depth tr
          cd1 irc1 ed1 t1) q emb resp2 mr2 depth tr cd2 irc2 ed2 t2).filter
        (fun r => searchCacheKey r == (q, depth, tr))) =
      [mkSearchCacheRow q emb resp2 mr2 depth tr cd2 irc2 ed2 t2] ∧
    ((update_url_cache (update_url_cache tableU uq ueq u uemb1 d1 ut1)
          uq ueq u uemb2 d2 ut2).filter
        (fun r => urlCacheKey r == (uq, ueq, u))) =
      [⟨uq, ueq, u, uemb1, d1, ut1⟩] ∧
    search_cache_lookup dist now2 emb depth mr tr
        (cache_search_result [] q emb resp mr depth tr cd irc ed t) =
      some (mkSearchCacheRow q emb resp mr depth tr cd irc ed t) := by
  refine ⟨?_, ?_, ?_⟩
  · rw [cache_search_result_fresh _ _ _ _ _ _ _ _ _ _ _
      (any_eq_false_of_all_not _ _ hfreshS)]
    rw [cache_search_result_conflict _ _ _ _ _ _ _ _ _ _ _
      (by rw [List.any_append]
          rw [any_eq_false_of_all_not _ _ hfreshS]
          simp [searchCacheKey_mk])]
    rw [List.map_append, List.filter_append]
    rw [map_replace_eq_self _ _ _ hfreshS, filter_eq_nil_of_all_not _ _ hfreshS]
    simp [searchCacheKey_mk]
  · rw [update_url_cache_fresh _ _ _ _ _ _ _
      (any_eq_false_of_all_not _ _ hfreshU)]
    rw [update_url_cache_conflict _ _ _ _ _ _ _
      (by rw [List.any_append]
          rw [any_eq_false_of_all_not _ _ hfreshU]
          simp [urlCacheKey_mk])]
    rw [List.filter_append, filter_eq_nil_of_all_not _ _ hfreshU]
    simp [urlCacheKey_mk]
  · rw [cache_search_result_fresh _ _ _ _ _ _ _ _ _ _ _ (by simp)]
    have hmatch : searchRowMatches dist now2 emb depth mr tr
        (mkSearchCacheRow q emb resp mr depth tr cd irc ed t) = true := by
      refine searchRowMatches_true_intro dist now2 emb depth mr tr _ ?_ rfl ?_ ?_ ?_
      · show (4 : ℚ)/10 < 1 - dist emb emb
        rw [hself]
        norm_num
      · exact le_refl mr
      · exact sqlOptEq_refl tr
      · exact hexp
    unfold search_cache_lookup searchCacheMatchSet
    rw [show ([] : List SearchCacheRow) ++
        [mkSearchCacheRow q emb resp mr depth tr cd irc ed t] =
        [mkSearchCacheRow q emb resp mr depth tr cd irc ed t] from rfl]
    rw [List.filter_cons, if_pos hmatch]
    simp [selectTop, selectTopStep]

/-- C4 witness: the amended upsert theorem applied to empty tables with
concrete writes; the search row stores duration 100 at time 0 and is looked
up at time 1. -/
theorem cache_upsert_amended_witness :
    ((cache_search_result (cache_search_result [] "q" 0 ⟨["r1"]⟩ 5 "advanced"
          none 100 false none 0) "q" 0 ⟨["r2"]⟩ 7 "advanced" none 200 true
          (some ["x.com"]) 3).filter
        (fun r => searchCacheKey r == ("q", "advanced", (none : Option String)))) =
      [mkSearchCacheRow "q" 0 ⟨["r2"]⟩ 7 "advanced" none 200 true
        (some ["x.com"]) 3] ∧
    ((update_url_cache (update_url_cache [] "uq" (some "ueq") "http://a.com/1"
          0 1 0) "uq" (some "ueq") "http://a.com/1" 0 2 5).filter
        (fun r => urlCacheKey r == ("uq", some "ueq", "http://a.com/1"))) =
      [⟨"uq", some "ueq", "http://a.com/1", 0, 1, 0⟩] ∧
    search_cache_lookup absDist 1 0 "advanced" 5 none
        (cache_search_result [] "q" 0 ⟨["r1"]⟩ 5 "advanced" none 100 false
          none 0) =
      some (mkSearchCacheRow "q" 0 ⟨["r1"]⟩ 5 "advanced" none 100 false none 0) :=
  cache_upsert_amended absDist [] "q" 0 ⟨["r1"]⟩ ⟨["r2"]⟩ 5 7 "advanced" none
    100 200 false true none (some ["x.com"]) 0 3 [] "uq" (some "ueq")
    "http://a.com/1" 0 0 1 2 0 5 ⟨["r1"]⟩ 5 100 false none 0 1 rfl rfl
    (by norm_num [absDist]) (by norm_num [searchCacheExpiry])

/-! ## C6: provider call on a cache miss (v1 search) -/

/-- C6 counterexample: on a cache miss the single provider call issued by the
v1 search carries no time-range filter at all (the client never consults a
TTL decision), so for a TTL decision with filter day the claim's requirement
that the call use that filter fails. The exclude_domains extension and the
single call are as claimed. -/
theorem provider_call_time_range_counterexample :
    (searchV1 absDist 0 [] (fun _ => ()) 1 (some "enhanced dogs") 0 none
        2).2.1 =
      [⟨some "enhanced dogs", ["facebook.com", "tiktok.com", "youtube.com"], 2,
        none⟩] ∧
    (none : Option String) ≠ some "day" := by
  constructor
  · rfl
  · simp

/-- C6 (amended): whenever the domain-filtered cached URLs number fewer than
min_required_results, v1 search returns the raw provider response of exactly
one provider call, whose exclude_domains are the caller's excluded domains
extended by the fixed low-signal deny list and which carries no time-range
filter of its own; no url_cache write happens during the call (caching is
deferred until content is extracted and validated). -/
theorem provider_call_amended {ρ : Type} (dist : ℚ → ℚ → ℚ) (now : ℤ)
    (table : List UrlCacheRow) (provider : ProviderSearchCallV1 → ρ)
    (minr : ℕ) (eq : Option String) (emb : ℚ) (excl : List String) (mr : ℕ)
    (hmiss : ((get_cached_urls dist now emb table mr).filter
        (fun u => !(excl.contains (netloc u)))).length < minr) :
    searchV1 dist now table provider minr eq emb (some excl) mr =
      (SearchReturnV1.providerResults
        (provider ⟨eq, excl ++ low_signal_domains, mr, none⟩),
       [⟨eq, excl ++ low_signal_domains, mr, none⟩], []) := by
  simp only [searchV1]
  rw [if_neg (Nat.not_le.mpr hmiss)]

/-- C6 witness: the amended provider-call theorem on an empty url cache with
one caller-excluded domain. -/
theorem provider_call_amended_witness :
    searchV1 absDist 0 [] (fun c => c) 1 (some "eq") 0 (some ["x.com"]) 2 =
      (SearchReturnV1.providerResults
        ⟨some "eq", ["x.com"] ++ low_signal_domains, 2, none⟩,
       [⟨some "eq", ["x.com"] ++ low_signal_domains, 2, none⟩], []) :=
  provider_call_amended absDist 0 [] (fun c => c) 1 (some "eq") 0 ["x.com"] 2
    (by decide)

/-! ## C2: domain exclusion recording -/

/-- C2 (code_bug): the bad_domains list is never modified by
process_single_result, on any extraction or classification outcome. The
domain-exclusion update of handle_bad_url sits after the call
tavily_client.delete_from_cache(url), a method the v1 client does not define;
the AttributeError it raises is swallowed by the function's own except
branch, so the append never runs. The claim (and the printed log message in
the code) say the failed URL's domain is added to bad_domains. -/
theorem bad_domains_never_recorded (url title : String) (score : ℤ)
    (ext : ExtractionOutcome) (cls : SummaryOutcome)
    (bad_domains : List String) :
    (process_single_result url title score ext cls bad_domains).2 =
      bad_domains := by
  cases ext <;> cases cls <;> rfl

/-! ## C9 and C10: extract failure handling -/

theorem dictLookup_cons_pos {α : Type} (p : String × α) (l : List (String × α))
    (k : String) (h : (p.1 == k) = true) : dictLookup (p :: l) k = some p.2 := by
  simp [dictLookup, List.find?_cons, h]

theorem dictLookup_cons_neg {α : Type} (p : String × α) (l : List (String × α))
    (k : String) (h : (p.1 == k) = false) :
    dictLookup (p :: l) k = dictLookup l k := by
  simp [dictLookup, List.find?_cons, h]

theorem dictLookup_map_replace {α : Type} (k : String) (v : α) :
    ∀ acc : List (String × α), acc.any (fun p => p.1 == k) = true →
      dictLookup (acc.map (fun p => if p.1 == k then (k, v) else p)) k =
        some v := by
  intro acc
  induction acc with
  | nil => intro h; simp at h
  | cons p rest ih =>
    intro h
    simp only [List.map_cons]
    by_cases hp : (p.1 == k) = true
    · rw [if_pos hp]
      exact dictLookup_cons_pos (k, v) _ k (by simp)
    · rw [if_neg hp]
      rw [dictLookup_cons_neg p _ k (by simpa using hp)]
      have hrest : rest.any (fun p => p.1 == k) = true := by
        simp only [List.any_cons, Bool.or_eq_true] at h
        rcases h with h | h
        · exact absurd h hp
        · exact h
      exact ih hrest

theorem dictLookup_append {α : Type} (l1 l2 : List (String × α)) (k : String) :
    dictLookup (l1 ++ l2) k =
      match dictLookup l1 k with
      | some v => some v
      | none => dictLookup l2 k := by
  induction l1 with
  | nil => rfl
  | cons p rest ih =>
    by_cases hp : (p.1 == k) = true
    · rw [List.cons_append, dictLookup_cons_pos p _ k hp,
        dictLookup_cons_pos p rest k hp]
    · rw [List.cons_append, dictLookup_cons_neg p _ k (by simpa using hp),
        dictLookup_cons_neg p rest k (by simpa using hp)]
      exact ih

theorem dictLookup_insert_self {α : Type} (acc : List (String × α)) (k : String)
    (v : α) : dictLookup (dictInsert acc k v) k = some v := by
  unfold dictInsert
  by_cases hany : acc.any (fun p => p.1 == k) = true
  · rw [if_pos hany]
    exact dictLookup_map_replace k v acc hany
  · rw [if_neg hany]
    rw [dictLookup_append]
    have hnone : dictLookup acc k = none := by
      induction acc with
      | nil => rfl
      | cons p rest ih =>
        simp only [List.any_cons, Bool.or_eq_true, not_or] at hany
        rw [dictLookup_cons_neg p rest k (by
          cases hpk : (p.1 == k)
          · rfl
          · exact absurd hpk hany.1)]
        exact ih (by simpa using hany.2)
    rw [hnone]
    exact dictLookup_cons_pos (k, v) [] k (by simp)

theorem dictLookup_map_replace_other {α : Type} (k : String) (v : α)
    (k2 : String) (hne : k2 ≠ k) :
    ∀ acc : List (String × α),
      dictLookup (acc.map (fun p => if p.1 == k then (k, v) else p)) k2 =
        dictLookup acc k2 := by
  intro acc
  induction acc with
  | nil => rfl
  | cons p rest ih =>
    simp only [List.map_cons]
    by_cases hp : (p.1 == k) = true
    · have hpk : p.1 = k := by simpa using hp
      have h1 : ((k, v).1 == k2) = false := by
        simp only [beq_eq_false_iff_ne]
        exact fun hkk => hne hkk.symm
      have h2 : (p.1 == k2) = false := by
        rw [hpk]
        simp only [beq_eq_false_iff_ne]
        exact fun hkk => hne hkk.symm
      rw [if_pos hp, dictLookup_cons_neg (k, v) _ k2 h1,
        dictLookup_cons_neg p rest k2 h2]
      exact ih
    · rw [if_neg hp]
      by_cases hp2 : (p.1 == k2) = true
      · rw [dictLookup_cons_pos p _ k2 hp2, dictLookup_cons_pos p rest k2 hp2]
      · rw [dictLookup_cons_neg p _ k2 (by simpa using hp2),
          dictLookup_cons_neg p rest k2 (by simpa using hp2)]
        exact ih

theorem dictLookup_insert_other {α : Type} (acc : List (String × α))
    (k : String) (v : α) (k2 : String) (hne : k2 ≠ k) :
    dictLookup (dictInsert acc k v) k2 = dictLookup acc k2 := by
  unfold dictInsert
  by_cases hany : acc.any (fun p => p.1 == k) = true
  · rw [if_pos hany]
    exact dictLookup_map_replace_other k v k2 hne acc
  · rw [if_neg hany]
    rw [dictLookup_append]
    have hk2 : dictLookup [(k, v)] k2 = none := by
      rw [dictLookup_cons_neg (k, v) [] k2 (by
        simp only [beq_eq_false_iff_ne]
        exact fun hkk => hne hkk.symm)]
      rfl
    cases h2 : dictLookup acc k2 <;> simp [h2, hk2]

theorem extractFailedFold_lookup (fs : List FailedResultItem) :
    ∀ (acc : List (String × String)) (k : String),
      dictLookup (fs.foldl extractFailedStep acc) k =
        if fs.any (fun f => f.url == k) = true then some "" else dictLookup acc k := by
  induction fs with
  | nil => intro acc k; simp
  | cons f rest ih =>
    intro acc k
    rw [List.foldl_cons, ih]
    by_cases hrest : rest.any (fun f2 => f2.url == k) = true
    · rw [if_pos hrest, if_pos (by simp [List.any_cons, hrest])]
    · rw [if_neg hrest]
      by_cases hfk : (f.url == k) = true
      · have hk : f.url = k := by simpa using hfk
        rw [if_pos (by simp [List.any_cons, hfk])]
        unfold extractFailedStep
        rw [hk]
        exact dictLookup_insert_self acc k ""
      · have hany2 : ¬(((f :: rest).any fun f2 => f2.url == k) = true) := by
          simp only [List.any_cons, Bool.or_eq_true]
          exact fun h => h.elim (fun h1 => hfk h1) (fun h2 => hrest h2)
        rw [if_neg hany2]
        unfold extractFailedStep
        exact dictLookup_insert_other acc f.url "" k
          (fun hkk => hfk (by simp [hkk]))

theorem extractResultsFold_fst_lookup (d : ℤ) (k : String) :
    ∀ (rs : List ExtractResultItem) (acc : List (String × String))
      (ws : List ContentCacheWrite),
      rs.all (fun r => !(r.url == k)) = true →
      dictLookup ((rs.foldl (extractResultsStep d) (acc, ws)).1) k =
        dictLookup acc k := by
  intro rs
  induction rs with
  | nil => intro acc ws h; rfl
  | cons r rest ih =>
    intro acc ws h
    simp only [List.all_cons, Bool.and_eq_true, Bool.not_eq_true'] at h
    rw [List.foldl_cons]
    rw [ih _ _ (by simpa using h.2)]
    exact dictLookup_insert_other acc r.url _ k
      (fun hkk => by rw [hkk] at h; simp at h)

theorem extractResultsFold_snd (d : ℤ) :
    ∀ (rs : List ExtractResultItem) (acc : List (String × String))
      (ws : List ContentCacheWrite),
      (rs.foldl (extractResultsStep d) (acc, ws)).2 =
        ws ++ rs.map (fun r => ⟨r.url, r.raw_content.getD "", d⟩) := by
  intro rs
  induction rs with
  | nil => intro acc ws; simp
  | cons r rest ih =>
    intro acc ws
    rw [List.foldl_cons, ih]
    simp [extractResultsStep]

/-- C9 counterexample: the provider reports a result with empty raw_content
for the requested url (no provider-reported failure), and v1 extract issues
an update_content_cache call storing that empty content; the claim says no
content-cache row is written when the extracted content is empty. -/
theorem extract_empty_content_cached_counterexample :
    (extractV1 0 [] ["http://example.com/a"]
        (fun _ => ⟨[⟨"http://example.com/a", some ""⟩], []⟩) 30).2 =
      [⟨"http://example.com/a", "", 30⟩] ∧
    ([] : List ContentCacheWrite) ≠ [⟨"http://example.com/a", "", 30⟩] := by
  constructor
  · rfl
  · simp

/-- C9 (amended): during a v1 extract call that reaches the provider, the
update_content_cache calls are exactly one per entry of the provider's
results list, storing that entry's raw_content (empty string when missing),
whatever its content; provider-reported failed urls that do not also appear
in the results list get no content-cache write, and are surfaced to the
caller only inside the returned results. -/
theorem extract_failure_caching_amended (now : ℤ) (cache : List ContentCacheRow)
    (urls : List String) (api : List String → ExtractApiResponse) (d : ℤ)
    (hne : (extractUrlsToFetch now cache urls).isEmpty = false) :
    (extractV1 now cache urls api d).2 =
      (api (extractUrlsToFetch now cache urls)).results.map
        (fun r => ⟨r.url, r.raw_content.getD "", d⟩) ∧
    (∀ f ∈ (api (extractUrlsToFetch now cache urls)).failed_results,
      (∀ r ∈ (api (extractUrlsToFetch now cache urls)).results, r.url ≠ f.url) →
      ∀ w ∈ (extractV1 now cache urls api d).2, w.url ≠ f.url) := by
  have h1 : (extractV1 now cache urls api d).2 =
      (api (extractUrlsToFetch now cache urls)).results.map
        (fun r => ⟨r.url, r.raw_content.getD "", d⟩) := by
    unfold extractV1
    rw [if_neg (by simp [hne])]
    dsimp only
    rw [extractResultsFold_snd]
    simp
  refine ⟨h1, ?_⟩
  intro f _ hnores w hw
  rw [h1] at hw
  simp only [List.mem_map] at hw
  obtain ⟨r, hr, hwr⟩ := hw
  intro hEq
  apply hnores r hr
  rw [← hwr] at hEq
  exact hEq

/-- C9 witness: the amended caching theorem with one failed url and one
successful extraction. -/
theorem extract_failure_caching_amended_witness :
    (extractV1 0 [] ["http://a.com/1", "http://b.com/1"]
        (fun _ => ⟨[⟨"http://a.com/1", some "text"⟩], [⟨"http://b.com/1", "boom"⟩]⟩)
        30).2 =
      (⟨[⟨"http://a.com/1", some "text"⟩],
        [⟨"http://b.com/1", "boom"⟩]⟩ : ExtractApiResponse).results.map
        (fun r => ⟨r.url, r.raw_content.getD "", 30⟩) ∧
    (∀ f ∈ (⟨[⟨"http://a.com/1", some "text"⟩],
        [⟨"http://b.com/1", "boom"⟩]⟩ : ExtractApiResponse).failed_results,
      (∀ r ∈ (⟨[⟨"http://a.com/1", some "text"⟩],
          [⟨"http://b.com/1", "boom"⟩]⟩ : ExtractApiResponse).results,
        r.url ≠ f.url) →
      ∀ w ∈ (extractV1 0 [] ["http://a.com/1", "http://b.com/1"]
          (fun _ => ⟨[⟨"http://a.com/1", some "text"⟩],
            [⟨"http://b.com/1", "boom"⟩]⟩) 30).2, w.url ≠ f.url) :=
  extract_failure_caching_amended 0 [] ["http://a.com/1", "http://b.com/1"]
    (fun _ => ⟨[⟨"http://a.com/1", some "text"⟩], [⟨"http://b.com/1", "boom"⟩]⟩)
    30 rfl

/-- C10 (confirmed): when the provider is consulted and reports a failed url
that is not also in its results list, the dict returned by v1 extract has
exactly the single key results, and the failed url appears among the results
entries with raw_content equal to the empty string, so callers can detect
the failure only by testing for empty content. -/
theorem extract_failed_results_shape (now : ℤ) (cache : List ContentCacheRow)
    (urls : List String) (api : List String → ExtractApiResponse) (d : ℤ)
    (f : FailedResultItem)
    (hne : (extractUrlsToFetch now cache urls).isEmpty = false)
    (hf : f ∈ (api (extractUrlsToFetch now cache urls)).failed_results)
    (hnores : (api (extractUrlsToFetch now cache urls)).results.all
      (fun r => !(r.url == f.url)) = true) :
    ((extractV1 now cache urls api d).1).map (fun p => p.1) = ["results"] ∧
    (∃ entries, (extractV1 now cache urls api d).1 = [("results", entries)] ∧
      dictLookup entries f.url = some "") := by
  unfold extractV1
  rw [if_neg (by simp [hne])]
  dsimp only
  refine ⟨rfl, _, rfl, ?_⟩
  rw [extractResultsFold_fst_lookup d f.url _ _ _ hnores]
  rw [extractFailedFold_lookup]
  rw [if_pos (List.any_eq_true.mpr ⟨f, hf, by simp⟩)]

/-- C10 witness: the shape theorem on one url whose extraction the provider
reports as failed. -/
theorem extract_failed_results_shape_witness :
    ((extractV1 0 [] ["http://b.com/1"]
        (fun _ => ⟨[], [⟨"http://b.com/1", "boom"⟩]⟩) 30).1).map
      (fun p => p.1) = ["results"] ∧
    (∃ entries, (extractV1 0 [] ["http://b.com/1"]
        (fun _ => ⟨[], [⟨"http://b.com/1", "boom"⟩]⟩) 30).1 =
      [("results", entries)] ∧
      dictLookup entries "http://b.com/1" = some "") :=
  extract_failed_results_shape 0 [] ["http://b.com/1"]
    (fun _ => ⟨[], [⟨"http://b.com/1", "boom"⟩]⟩) 30 ⟨"http://b.com/1", "boom"⟩
    rfl (by simp) rfl

/-! ## C5: retry result merging -/

theorem psraGo_normal_search_results (events : List SearchEvent) :
    ∀ (st : WState) (acc : List (String × ResultDoc)),
      eventsCompleteNormally events = true →
      (psraGo st acc events).search_results =
        dictValues (events.foldl collectEventStep acc) := by
  induction events with
  | nil => intro st acc _; rfl
  | cons e rest ih =>
    intro st acc h
    simp only [eventsCompleteNormally, Bool.and_eq_true] at h
    obtain ⟨⟨herr, hstat⟩, hrest⟩ := h
    have herr3 : ¬ (e.error.isSome = true) := by
      rw [Option.isNone_iff_eq_none.mp herr]
      simp
    have hstat3 : ¬ ((e.status == "insufficient_results") = true) := by
      simpa using hstat
    have hstep : psraGo st acc (e :: rest) =
        (match e.results with
         | some msgs =>
             psraGo { st with bad_domains := e.bad_domains.getD st.bad_domains }
               (msgs.foldl collectResult acc) rest
         | none => psraGo st acc rest) := by
      simp only [psraGo]
      rw [if_neg herr3, if_neg hstat3]
    rw [hstep, List.foldl_cons]
    cases hres : e.results with
    | some msgs =>
      rw [show collectEventStep acc e = msgs.foldl collectResult acc from by
        unfold collectEventStep
        rw [hres]]
      exact ih _ _ hrest
    | none =>
      rw [show collectEventStep acc e = acc from by
        unfold collectEventStep
        rw [hres]]
      exact ih _ _ hrest

theorem psraGo_stop_insufficient (events : List SearchEvent) :
    ∀ (st : WState) (acc : List (String × ResultDoc)),
      eventsStopInsufficient events = true →
      (psraGo st acc events).search_results = st.search_results ∧
      (psraGo st acc events).status = "insufficient_results" ∧
      (psraGo st acc events).retry_count = st.retry_count := by
  induction events with
  | nil => intro st acc h; simp [eventsStopInsufficient] at h
  | cons e rest ih =>
    intro st acc h
    simp only [eventsStopInsufficient] at h
    by_cases herr : e.error.isSome = true
    · rw [if_pos herr] at h
      exact absurd h (by simp)
    · rw [if_neg herr] at h
      by_cases hstat : (e.status == "insufficient_results") = true
      · have hstep : psraGo st acc (e :: rest) =
            { st with status := "insufficient_results",
                      retry_count := st.retry_count,
                      bad_domains := e.bad_domains.getD st.bad_domains } := by
          simp only [psraGo]
          rw [if_neg herr, if_pos hstat]
        rw [hstep]
        exact ⟨rfl, rfl, rfl⟩
      · rw [if_neg hstat] at h
        have hstep : psraGo st acc (e :: rest) =
            (match e.results with
             | some msgs =>
                 psraGo { st with bad_domains := e.bad_domains.getD st.bad_domains }
                   (msgs.foldl collectResult acc) rest
             | none => psraGo st acc rest) := by
          simp only [psraGo]
          rw [if_neg herr, if_neg hstat]
        rw [hstep]
        cases e.results with
        | some msgs => exact ih _ _ h
        | none => exact ih _ _ h

/-- C5 counterexample: a retry attempt (retry_count 1) whose inner workflow
completes with one processed result docB replaces search_results wholesale:
the previously retained docA is gone from the stored list, while the claim
says previous results are merged in and never discarded. -/
theorem retry_merge_counterexample :
    (process_search_results_async
        ⟨"dogs", some "eq", none, none, [⟨some "A", some "http://a.com/1",
          some 0, some "mdA", none, none⟩], none, "continue", none, 1, []⟩
        [⟨none, "success", some [some ⟨some "B", some "http://b.com/1", some 0,
          some "mdB", none, none⟩], some []⟩]).search_results =
      [⟨some "B", some "http://b.com/1", some 0, some "mdB", none, none⟩] ∧
    (⟨some "A", some "http://a.com/1", some 0, some "mdA", none, none⟩ :
        ResultDoc) ∉
      ([⟨some "B", some "http://b.com/1", some 0, some "mdB", none, none⟩] :
        List ResultDoc) := by
  constructor
  · rfl
  · decide

/-- C5 (amended): a normally completing attempt stores exactly its own
unique-by-url results, independent of any previously retained
search_results (replacement, not a merge); an attempt that stops with
insufficient_results leaves the previous search_results untouched. -/
theorem retry_merge_amended (st : WState) (events : List SearchEvent) :
    (eventsCompleteNormally events = true →
      (process_search_results_async st events).search_results =
        attemptResults events) ∧
    (eventsStopInsufficient events = true →
      (process_search_results_async st events).search_results =
        st.search_results) := by
  constructor
  · intro h
    unfold process_search_results_async attemptResults
    exact psraGo_normal_search_results events st [] h
  · intro h
    exact (psraGo_stop_insufficient events st [] h).1

/-- C5 witness: the amended theorem applied to a state holding a previous
result, once with a completing stream and once with an insufficient one. -/
theorem retry_merge_amended_witness :
    (process_search_results_async
        ⟨"dogs", some "eq", none, none, [⟨some "A", some "http://a.com/1",
          some 0, some "mdA", none, none⟩], none, "continue", none, 1, []⟩
        [⟨none, "success", some [some ⟨some "B", some "http://b.com/1", some 0,
          some "mdB", none, none⟩], some []⟩]).search_results =
      attemptResults [⟨none, "success", some [some ⟨some "B",
        some "http://b.com/1", some 0, some "mdB", none, none⟩], some []⟩] ∧
    (process_search_results_async
        ⟨"dogs", some "eq", none, none, [⟨some "A", some "http://a.com/1",
          some 0, some "mdA", none, none⟩], none, "continue", none, 1, []⟩
        [insufficientSearchEvent ["bad.com"]]).search_results =
      [⟨some "A", some "http://a.com/1", some 0, some "mdA", none, none⟩] :=
  ⟨(retry_merge_amended _ _).1 rfl, (retry_merge_amended _ _).2 rfl⟩

/-! ## C1: retry bound -/

theorem psraGo_insufficient_event (st : WState) (bd : List String) :
    process_search_results_async st [insufficientSearchEvent bd] =
      { st with status := "insufficient_results", bad_domains := bd } := rfl

/-- C1 counterexample: the concrete fresh run on the query dogs does not make
3 reformulation attempts and never reaches status continue: it crashes in its
very first node, because wrapped_query_interpreter calls the async
enhance_initial_query without await and new_state.update on the resulting
coroutine object raises TypeError, so the graph run aborts after a single
entry into the query interpreter and process_query returns the caught-error
output with retry_count 0 and empty search_results. -/
theorem retry_bound_counterexample :
    runWorkflow wrapped_query_interpreter wrapped_web_searcher (fun st => st)
        10 Node.query_interpreter (freshWorkflowState "dogs") =
      Except.error ("'coroutine' object is not iterable",
        [Node.query_interpreter]) ∧
    process_query (fun st => st) 10 "dogs" =
      some ⟨"dogs", none, [], "Error: No content could be generated", "error",
        some "Unexpected error: 'coroutine' object is not iterable", 0⟩ ∧
    "error" ≠ "continue" := by
  refine ⟨rfl, rfl, by simp⟩

/-- C1 (amended): for every editor collaborator, positive fuel budget and
query, the workflow terminates — but by raising, not by exhausting the retry
budget: the unawaited enhance_initial_query call makes new_state.update raise
TypeError in the entry node, so the run aborts after exactly one entry into
the query interpreter (zero completed reformulations, zero search attempts),
graph.invoke propagates the exception, and process_query returns the terminal
output with status error, error message Unexpected error: coroutine object is
not iterable, retry_count 0 and empty search_results — never status continue
after 3 reformulation attempts. -/
theorem retry_bound_amended (editor : WState → WState) (fuel : ℕ) (q : String) :
    runWorkflow wrapped_query_interpreter wrapped_web_searcher editor
        (fuel + 1) Node.query_interpreter (freshWorkflowState q) =
      Except.error ("'coroutine' object is not iterable",
        [Node.query_interpreter]) ∧
    process_query editor (fuel + 1) q =
      some ⟨q, none, [], "Error: No content could be generated", "error",
        some "Unexpected error: 'coroutine' object is not iterable", 0⟩ ∧
    "error" ≠ "continue" := by
  refine ⟨rfl, by simp only [process_query]; rfl, by simp⟩

end Infogen
